import Mathlib

/-!
Shallow embedding of `src/notebook/nvcf_async.py`, the NVCF remote-invocation
pipeline: request formatting (`_format_request`, `_generate_command`), asset
upload (`_prepare_local_asset_async`), pending-status polling with exponential
backoff (`_poll_response_async`), response decoding (`process_response`,
`_unpack_zip_response_async`) and the orchestrator (`api_call_async`).

Network transports are modelled as oracles: a function from the index of the
request actually issued to the response observed.  Decoded JSON values
(`json.loads` results, typed `Any` in Python) are a type parameter `J`, and
the two entry points of the `json` module are fields of `JsonCodec`.  Delays
are rationals (the Python floats are only ever doubled, halved and compared,
which is exact).  Python exceptions become the `ApiException` sum; a Python
function that can raise returns `Except ApiException _`.
-/

namespace NvcfAsync

/-- Raw bytes of a payload (Python `bytes`), as a list of byte values. -/
abbrev Bytes := List Nat

/-- The two operations of Python's `json` module used by the source, abstract
over the type `J` of decoded JSON values (`json.loads` returns `Any`).
`none` models a raised `json.JSONDecodeError`. -/
structure JsonCodec (J : Type) where
  loadsText : String → Option J
  loadsBytes : Bytes → Option J

/-- A value stored in the dictionary built by `_unpack_zip_response_async`:
either a parsed JSON structure (from a `.json` entry) or raw bytes (from a
`.png` or `.mp4` entry). -/
inductive ZipVal (J : Type) where
  | jsonVal : J → ZipVal J
  | bytesVal : Bytes → ZipVal J
deriving DecidableEq, Repr

/-- The `output` dictionary of `_unpack_zip_response_async`, as an insertion
ordered association list (Python `dict`). -/
abbrev ZipDict (J : Type) := List (String × ZipVal J)

/-- Python `dict` assignment `d[k] = v`: overwrite in place if the key is
present, append otherwise. -/
def dictSet {J : Type} (d : ZipDict J) (k : String) (v : ZipVal J) : ZipDict J :=
  if d.any (fun p => p.1 == k) then d.map (fun p => if p.1 == k then (k, v) else p)
  else d ++ [(k, v)]

/-- Python `str.endswith`, computed on the character lists. -/
def strEndsWith (s suffix : String) : Bool :=
  suffix.data.isSuffixOf s.data

/-- The characters after the last `/` (the whole list when there is none). -/
def afterLastSlash : List Char → List Char → List Char
  | [], acc => acc.reverse
  | c :: rest, acc =>
    if c = '/' then afterLastSlash rest [] else afterLastSlash rest (c :: acc)

/-- `os.path.basename`: the final `/`-separated component of a path. -/
def basename (p : String) : String :=
  ⟨afterLastSlash p.data []⟩

/-- Python slicing `s[:-n]`: the string without its last `n` characters
(empty when `n ≥ len(s)`). -/
def strDropRight (s : String) (n : Nat) : String :=
  ⟨s.data.take (s.data.length - n)⟩

/-- The entry loop of `_unpack_zip_response_async` (`for zipped_file in
zipped_files`), source lines 296-302: `.json` entries are parsed with
`json.loads` and stored under the basename with the 5-character `.json`
suffix stripped (`[:-5]`); `.png` bytes go under `"image"`; `.mp4` bytes
under `"video"`; other entries are skipped. -/
def unpackZipGo {J : Type} (jsonLoads : Bytes → Option J) :
    List (String × Bytes) → ZipDict J → Except String (ZipDict J)
  | [], out => .ok out
  | (name, data) :: rest, out =>
    if strEndsWith name ".json" then
      match jsonLoads data with
      | some v => unpackZipGo jsonLoads rest
          (dictSet out (strDropRight (basename name) 5) (.jsonVal v))
      | none => .error "json.JSONDecodeError"
    else if strEndsWith name ".png" then
      unpackZipGo jsonLoads rest (dictSet out "image" (.bytesVal data))
    else if strEndsWith name ".mp4" then
      unpackZipGo jsonLoads rest (dictSet out "video" (.bytesVal data))
    else unpackZipGo jsonLoads rest out

/-- `_unpack_zip_response_async`, source lines 273-303, applied to the entry
list of a well-formed archive (name, raw bytes per entry). -/
def _unpack_zip_response_async {J : Type} (jsonLoads : Bytes → Option J)
    (entries : List (String × Bytes)) : Except String (ZipDict J) :=
  unpackZipGo jsonLoads entries []

/-- An `aiohttp.ClientResponse` as the source observes it: HTTP status,
declared content type, decoded body text, the entry list of the body when it
is a well-formed zip archive (`none` models `zipfile.is_zipfile` failing),
and whether reading the body raises `aiohttp.ConnectionTimeoutError`. -/
structure Resp where
  status : Nat
  content_type : String
  body_text : String
  zip_entries : Option (List (String × Bytes))
  read_times_out : Bool
deriving DecidableEq, Repr

/-- The decoded payload returned by `process_response`: the parsed JSON of an
`application/json` body, or the dictionary unpacked from a zip body. -/
inductive Output (J : Type) where
  | jsonOut : J → Output J
  | dictOut : ZipDict J → Output J
deriving DecidableEq, Repr

/-- The possible outcomes of `process_response`: a decoded payload, a
propagated `json.JSONDecodeError`, the `ValueError` for an unsupported
content type, the `AssertionError` of `assert zipfile.is_zipfile`, or an
`aiohttp.ConnectionTimeoutError` raised while reading the body. -/
inductive ProcOutcome (J : Type) where
  | ok : Output J → ProcOutcome J
  | jsonDecodeErr : ProcOutcome J
  | valueErr : String → ProcOutcome J
  | assertErr : ProcOutcome J
  | connTimeout : ProcOutcome J
deriving DecidableEq, Repr

/-- `process_response`, source lines 243-270: dispatch on
`response.content_type`.  JSON bodies are read as text and parsed; zip bodies
are read, checked with `assert zipfile.is_zipfile` and unpacked; any other
content type raises `ValueError("Unsupported content type: ...")`.  The
`except` clauses re-raise, so every error propagates. -/
def process_response {J : Type} (codec : JsonCodec J) (resp : Resp) : ProcOutcome J :=
  if resp.content_type = "application/json" then
    if resp.read_times_out then .connTimeout
    else
      match codec.loadsText resp.body_text with
      | some v => .ok (.jsonOut v)
      | none => .jsonDecodeErr
  else if resp.content_type = "application/zip" then
    if resp.read_times_out then .connTimeout
    else
      match resp.zip_entries with
      | none => .assertErr
      | some entries =>
        match _unpack_zip_response_async codec.loadsBytes entries with
        | .ok d => .ok (.dictOut d)
        | .error _ => .jsonDecodeErr
  else .valueErr ("Unsupported content type: " ++ resp.content_type)

/-- One entry of the `"inputs"` list in the request body built by
`_format_request`.  `data` holds Python values that are `str` or `None`
(the orchestrator appends `None` for a failed upload), hence
`List (Option String)`. -/
structure InputEntry where
  name : String
  shape : List Nat
  datatype : String
  data : List (Option String)
deriving DecidableEq, Repr

/-- Python `",".join(items)` over a list whose items are `str` or `None`:
raises `TypeError` if any item is not a `str`, otherwise intercalates. -/
def joinComma (items : List (Option String)) : Except String String :=
  if items.any (fun x => x.isNone) then
    .error "TypeError: sequence item: expected str instance, NoneType found"
  else .ok (String.intercalate "," (items.filterMap id))

/-- `_format_request`, source lines 30-70: the three fixed headers, the
comma-joined `NVCF-INPUT-ASSET-REFERENCES` header added only when
`len(asset_names) > 0`, and the body's `"inputs"` list holding the command
entry followed by one positionally named entry per asset. -/
def _format_request (command : String) (token : String)
    (asset_names : List (Option String)) :
    Except String (List InputEntry × List (String × String)) :=
  let headers0 : List (String × String) :=
    [("Authorization", "Bearer " ++ token),
     ("Content-Type", "application/json"),
     ("NVCF-POLL-SECONDS", "3600")]
  match (if asset_names.length > 0 then
          (joinComma asset_names).map
            (fun j => headers0 ++ [("NVCF-INPUT-ASSET-REFERENCES", j)])
         else .ok headers0) with
  | .error e => .error e
  | .ok headers =>
    let inputs : List InputEntry :=
      ⟨"command", [1], "BYTES", [some command]⟩ ::
        (asset_names.enum.map (fun p =>
          ⟨"image_assetId_" ++ toString p.1, [1], "BYTES", [p.2]⟩))
    .ok (inputs, headers)

/-- `_generate_command`, source lines 73-75: the api name followed by each
parameter rendered `--key=value`, space separated. -/
def _generate_command (api : String) (params : List (String × String)) : String :=
  api ++ " " ++ String.intercalate " " (params.map (fun p => "--" ++ p.1 ++ "=" ++ p.2))

/-- A network request issued by the asset uploader, for call-trace
assertions: `POST /assets` (`_create_asset_async`) or `PUT uploadUrl`
(`_upload_asset_async`). -/
inductive NetCall where
  | createAsset : String → NetCall
  | uploadAsset : String → String → NetCall
deriving DecidableEq, Repr

/-- Exceptions the pipeline can raise, one constructor per Python exception
class reaching `nvcf_async`. -/
inductive ApiException where
  | fileNotFound : String → ApiException
  | typeError : String → ApiException
  | timeoutError : String → ApiException
  | jsonDecodeError : ApiException
  | valueError : String → ApiException
  | assertionError : ApiException
  | connTimeoutError : ApiException
deriving DecidableEq, Repr

/-- The environment of one upload: the local filesystem (`os.path.exists` and
`open(...).read()`), and the transport oracles for asset creation (the parsed
`uploadUrl` and `assetId` fields of the i-th creation response) and upload
(HTTP status and body text of the i-th upload response). -/
structure UploadEnv where
  fs : String → Option Bytes
  create_responses : Nat → String × String
  upload_responses : Nat → Nat × String

/-- `_prepare_local_asset_async`, source lines 134-181: raise
`FileNotFoundError` when the path is empty or does not exist (before any
network call), otherwise create the asset, upload the file bytes, and return
`None` (not an exception) when the upload status is not 200, else the asset
id.  Alongside the result, the list of network calls issued. -/
def _prepare_local_asset_async (env : UploadEnv) (asset_name : String)
    (filepath : String) (idx : Nat) :
    Except ApiException (Option String) × List NetCall :=
  if filepath = "" then (.error (.fileNotFound (filepath ++ " not found")), [])
  else
    match env.fs filepath with
    | none => (.error (.fileNotFound (filepath ++ " not found")), [])
    | some _file_binary =>
      let asset_url := (env.create_responses idx).1
      let asset_id := (env.create_responses idx).2
      let upload_status := (env.upload_responses idx).1
      let calls := [NetCall.createAsset asset_name, NetCall.uploadAsset asset_url asset_name]
      if upload_status ≠ 200 then (.ok none, calls)
      else (.ok (some asset_id), calls)

/-- The state of the `while` loop of `_poll_response_async` when it exits:
the response variable, the attempt counter, the number of poll GETs issued,
and the delays slept, in order. -/
structure PollState where
  final : Resp
  attempt : Nat
  num_polls : Nat
  sleeps : List ℚ
deriving DecidableEq, Repr

/-- The `while` loop of `_poll_response_async`, source lines 215-231, with
status-endpoint GETs abstracted by the oracle `polls` (indexed by the number
of GETs already issued).  While the response is 202 and attempts remain:
poll; break on a non-202 result; otherwise increment the attempt counter
and, if attempts remain, double the delay capped at `max_backoff` and sleep
for the updated value.  `fuel` is an upper bound on the remaining loop
iterations; the caller passes `max_attempts`, which is exact because every
iteration that recurses increments `attempt`, so the fuel-exhausted case
coincides with the loop guard failing. -/
def poll_loop (polls : Nat → Resp) (max_attempts : Nat) (max_backoff : ℚ) :
    Nat → Resp → Nat → ℚ → Nat → List ℚ → PollState
  | 0, resp, attempt, _delay, issued, sleeps => ⟨resp, attempt, issued, sleeps⟩
  | fuel + 1, resp, attempt, delay, issued, sleeps =>
    if resp.status = 202 ∧ attempt < max_attempts then
      if (polls issued).status ≠ 202 then ⟨polls issued, attempt, issued + 1, sleeps⟩
      else if attempt + 1 < max_attempts then
        poll_loop polls max_attempts max_backoff fuel (polls issued) (attempt + 1)
          (min (delay * 2) max_backoff) (issued + 1) (sleeps ++ [min (delay * 2) max_backoff])
      else poll_loop polls max_attempts max_backoff fuel (polls issued) (attempt + 1) delay
        (issued + 1) sleeps
    else ⟨resp, attempt, issued, sleeps⟩

/-- The observable run of `_poll_response_async`: the returned response or
the raised exception, together with the poll-request count and the sleeps. -/
structure PollRun where
  result : Except ApiException Resp
  num_polls : Nat
  sleeps : List ℚ

/-- The final check of `_poll_response_async`, source lines 236-240: raise
`TimeoutError("Maximum polling attempts reached")` whenever the attempt
counter reached `max_attempts`, whatever ended the loop; else return the
final response. -/
def poll_finish (max_attempts : Nat) (st : PollState) : PollRun :=
  if st.attempt ≥ max_attempts then
    ⟨.error (.timeoutError "Maximum polling attempts reached"), st.num_polls, st.sleeps⟩
  else ⟨.ok st.final, st.num_polls, st.sleeps⟩

/-- `_poll_response_async`, source lines 184-240: run the polling loop from
attempt 0 and the initial delay, then apply the final budget check. -/
def _poll_response_async (response : Resp) (polls : Nat → Resp)
    (initial_delay : ℚ) (max_attempts : Nat) (max_backoff : ℚ) : PollRun :=
  poll_finish max_attempts
    (poll_loop polls max_attempts max_backoff max_attempts response 0 initial_delay 0 [])

/-- `Result.response_text` is annotated `str` but holds the decoded payload
on the success path (source line 352), so it is a string or a payload. -/
inductive TextVal (J : Type) where
  | str : String → TextVal J
  | payload : Output J → TextVal J
deriving DecidableEq, Repr

/-- The `Result` dataclass, source lines 23-27. -/
structure Result (J : Type) where
  response_text : TextVal J
  output : Option (Output J)
  status_code : Nat
deriving DecidableEq, Repr

/-- The terminal-response handling of `api_call_async`, source lines
340-361: non-200 status returns the body text with no output (reading the
text can itself raise, uncaught there); for a 200 the decoded payload is
returned in both fields, `aiohttp.ConnectionTimeoutError` from
`process_response` is caught and mapped to a `"Connection Timeout"` result,
and decode errors propagate. -/
def api_terminal {J : Type} (codec : JsonCodec J) (resp : Resp) :
    Except ApiException (Result J) :=
  if resp.status ≠ 200 then
    if resp.read_times_out then .error .connTimeoutError
    else .ok ⟨.str resp.body_text, none, resp.status⟩
  else
    match process_response codec resp with
    | .ok out => .ok ⟨.payload out, some out, resp.status⟩
    | .connTimeout => .ok ⟨.str "Connection Timeout", none, resp.status⟩
    | .jsonDecodeErr => .error .jsonDecodeError
    | .valueErr m => .error (.valueError m)
    | .assertErr => .error .assertionError

/-- The environment of a full `api_call_async` invocation: the upload-side
oracles plus the submission response (`POST FUNCTION_URL`) and the
status-poll oracle. -/
structure ApiEnv where
  fs : String → Option Bytes
  create_responses : Nat → String × String
  upload_responses : Nat → Nat × String
  submit_response : Resp
  poll_responses : Nat → Resp

/-- The upload-side slice of an `ApiEnv`. -/
def ApiEnv.toUploadEnv (env : ApiEnv) : UploadEnv :=
  ⟨env.fs, env.create_responses, env.upload_responses⟩

/-- The upload loop of `api_call_async`, source lines 325-333: for each
filepath, append the value returned by `_prepare_local_asset_async` (the
asset id, or `None` on a failed upload) to `asset_names`; a raised exception
aborts the loop. -/
def upload_all (env : ApiEnv) : List String → Nat → Except ApiException (List (Option String))
  | [], _ => .ok []
  | fp :: rest, i =>
    match (_prepare_local_asset_async env.toUploadEnv fp fp i).1 with
    | .error e => .error e
    | .ok name =>
      match upload_all env rest (i + 1) with
      | .error e => .error e
      | .ok names => .ok (name :: names)

/-- `api_call_async`, source lines 306-361: upload every filepath, build the
command and the request (where `",".join` sees any `None` entries), submit
and poll with the default configuration (`initial_delay=0.001`,
`max_attempts=10`, `max_backoff=32.0`), then handle the terminal response. -/
def api_call_async {J : Type} (codec : JsonCodec J) (env : ApiEnv) (token : String)
    (params : List (String × String)) (filepaths : List String) :
    Except ApiException (Result J) :=
  match upload_all env filepaths 0 with
  | .error e => .error e
  | .ok asset_names =>
    match _format_request (_generate_command "vis_control" params) token asset_names with
    | .error e => .error (.typeError e)
    | .ok _request_headers =>
      match (_poll_response_async env.submit_response env.poll_responses
          (1 / 1000) 10 32).result with
      | .error e => .error e
      | .ok final => api_terminal codec final

/-- The last HTTP response observed by a run of `api_call_async`: the final
response of its polling loop (the submission response itself when no poll is
issued). -/
def last_observed (env : ApiEnv) : Resp :=
  (poll_loop env.poll_responses 10 32 10 env.submit_response 0 (1/1000) 0 []).final

/-- C7: every terminal response whose declared content type is neither
`application/json` nor `application/zip` makes `process_response` raise the
unsupported-format `ValueError`; only those two content types are decoded. -/
theorem process_response_unsupported_content_type {J : Type} (codec : JsonCodec J)
    (resp : Resp) (hjson : resp.content_type ≠ "application/json")
    (hzip : resp.content_type ≠ "application/zip") :
    process_response codec resp =
      .valueErr ("Unsupported content type: " ++ resp.content_type) := by
  unfold process_response
  rw [if_neg hjson, if_neg hzip]

/-- Witness for C7 at the `text/plain` response of the spec's test. -/
theorem process_response_unsupported_content_type_witness :
    ((⟨200, "text/plain", "ok", none, false⟩ : Resp).content_type ≠ "application/json" ∧
     (⟨200, "text/plain", "ok", none, false⟩ : Resp).content_type ≠ "application/zip") ∧
    process_response (J := Unit) ⟨fun _ => none, fun _ => none⟩
        ⟨200, "text/plain", "ok", none, false⟩ =
      .valueErr ("Unsupported content type: " ++ "text/plain") :=
  ⟨⟨by decide, by decide⟩,
    process_response_unsupported_content_type ⟨fun _ => none, fun _ => none⟩
      ⟨200, "text/plain", "ok", none, false⟩ (by decide) (by decide)⟩

/-- C8: a local path that does not exist makes `_prepare_local_asset_async`
fail with `FileNotFoundError` before any network call is issued — the call
trace is empty, so no asset creation and no (partial) upload happens. -/
theorem prepare_asset_missing_path_no_network (env : UploadEnv) (asset_name : String)
    (filepath : String) (idx : Nat) (hfs : env.fs filepath = none) :
    _prepare_local_asset_async env asset_name filepath idx =
      (.error (.fileNotFound (filepath ++ " not found")), []) := by
  unfold _prepare_local_asset_async
  by_cases h : filepath = ""
  · rw [if_pos h]
  · rw [if_neg h, hfs]

/-- Witness for C8 at an empty filesystem. -/
theorem prepare_asset_missing_path_no_network_witness :
    (⟨fun _ => none, fun _ => ("", ""), fun _ => (200, "")⟩ : UploadEnv).fs
        "/tmp/missing.png" = none ∧
    _prepare_local_asset_async ⟨fun _ => none, fun _ => ("", ""), fun _ => (200, "")⟩
        "input_image" "/tmp/missing.png" 0 =
      (.error (.fileNotFound ("/tmp/missing.png" ++ " not found")), []) :=
  ⟨rfl, prepare_asset_missing_path_no_network
    ⟨fun _ => none, fun _ => ("", ""), fun _ => (200, "")⟩ "input_image" "/tmp/missing.png" 0 rfl⟩

/-- C6: decoding a well-formed zip archive with entries `a.json`, `image.png`
and `video.mp4` yields a mapping with exactly the keys `a`, `image`, `video`:
`a` holds the parsed JSON structure of the original `a.json` bytes, and
`image`/`video` hold the original raw bytes of the `.png`/`.mp4` entries. -/
theorem unpack_zip_round_trip {J : Type} (jsonLoads : Bytes → Option J)
    (jb ib vb : Bytes) (v : J) (hparse : jsonLoads jb = some v) :
    _unpack_zip_response_async jsonLoads
        [("a.json", jb), ("image.png", ib), ("video.mp4", vb)] =
      .ok [("a", .jsonVal v), ("image", .bytesVal ib), ("video", .bytesVal vb)] := by
  have h1 : _unpack_zip_response_async jsonLoads
      [("a.json", jb), ("image.png", ib), ("video.mp4", vb)] =
      match jsonLoads jb with
      | some w => unpackZipGo jsonLoads [("image.png", ib), ("video.mp4", vb)]
          [("a", .jsonVal w)]
      | none => .error "json.JSONDecodeError" := rfl
  rw [h1, hparse]
  rfl

/-- Witness for C6 with a one-byte JSON codec. -/
theorem unpack_zip_round_trip_witness :
    (fun b => List.head? b) [7] = some 7 ∧
    _unpack_zip_response_async (fun b => List.head? b)
        [("a.json", [7]), ("image.png", [1, 2]), ("video.mp4", [3, 4])] =
      .ok [("a", .jsonVal 7), ("image", .bytesVal [1, 2]), ("video", .bytesVal [3, 4])] :=
  ⟨rfl, unpack_zip_round_trip (fun b => List.head? b) [7] [1, 2] [3, 4] 7 rfl⟩

/-- Python's `",".join` never sees a `None` when every asset name is a
string: it returns the comma intercalation. -/
theorem joinComma_map_some (l : List String) :
    joinComma (l.map (fun a => some a)) = .ok (String.intercalate "," l) := by
  unfold joinComma
  rw [if_neg]
  · rw [List.filterMap_map]
    simp
  · simp

/-- Enumerating a list of lifted options enumerates the underlying list. -/
theorem enumFrom_map_some (l : List String) : ∀ n : Nat,
    (l.map (fun a => some a)).enumFrom n =
      (l.enumFrom n).map (fun p => (p.1, some p.2)) := by
  induction l with
  | nil => intro n; rfl
  | cons a rest ih => intro n; simp [List.enumFrom, ih]

/-- C9: for every command, token and list of asset identifiers,
`_format_request` succeeds with headers that always contain the bearer
authorization, the JSON content type and the poll-timeout hint, contain the
comma-joined asset-reference header exactly when the asset list is
non-empty, and a body whose inputs are the command entry followed, in
order, by one positionally named entry per asset carrying that identifier
as its data. -/
theorem format_request_headers_and_body (command token : String)
    (asset_names : List String) :
    ∃ inputs headers,
      _format_request command token (asset_names.map (fun a => some a)) =
        .ok (inputs, headers) ∧
      ("Authorization", "Bearer " ++ token) ∈ headers ∧
      ("Content-Type", "application/json") ∈ headers ∧
      ("NVCF-POLL-SECONDS", "3600") ∈ headers ∧
      (asset_names ≠ [] →
        ("NVCF-INPUT-ASSET-REFERENCES", String.intercalate "," asset_names) ∈ headers) ∧
      (asset_names = [] → ∀ v, ("NVCF-INPUT-ASSET-REFERENCES", v) ∉ headers) ∧
      inputs = ⟨"command", [1], "BYTES", [some command]⟩ ::
        (asset_names.enum.map (fun p =>
          (⟨"image_assetId_" ++ toString p.1, [1], "BYTES", [some p.2]⟩ : InputEntry))) := by
  cases asset_names with
  | nil =>
    refine ⟨_, _, rfl, ?_, ?_, ?_, ?_, ?_, rfl⟩
    · simp
    · simp
    · simp
    · intro h; exact absurd rfl h
    · intro _ v hv
      simp only [List.mem_cons, List.not_mem_nil, or_false] at hv
      simp only [Prod.mk.injEq] at hv
      rcases hv with ⟨h, _⟩ | ⟨h, _⟩ | ⟨h, _⟩ <;> exact absurd h (by decide)
  | cons a rest =>
    have hjoin := joinComma_map_some (a :: rest)
    have hfmt : _format_request command token ((a :: rest).map (fun x => some x)) =
        .ok (⟨"command", [1], "BYTES", [some command]⟩ ::
              (((a :: rest).map (fun x => some x)).enum.map (fun p =>
                (⟨"image_assetId_" ++ toString p.1, [1], "BYTES", [p.2]⟩ : InputEntry))),
             [("Authorization", "Bearer " ++ token),
              ("Content-Type", "application/json"),
              ("NVCF-POLL-SECONDS", "3600"),
              ("NVCF-INPUT-ASSET-REFERENCES", String.intercalate "," (a :: rest))]) := by
      have hlen : ((a :: rest).map (fun x => some x)).length > 0 := by simp
      unfold _format_request
      simp only [if_pos hlen, hjoin]
      rfl
    refine ⟨_, _, hfmt, ?_, ?_, ?_, ?_, ?_, ?_⟩
    · simp
    · simp
    · simp
    · intro _; simp
    · intro h; exact absurd h (List.cons_ne_nil a rest)
    · rw [List.enum_eq_enumFrom, List.enum_eq_enumFrom, enumFrom_map_some (a :: rest) 0,
        List.map_map]
      rfl

/-- Witness for C9 with two asset identifiers. -/
theorem format_request_headers_and_body_witness :
    ∃ inputs headers,
      _format_request "vis_control --x=1" "tok" (["asset-1", "asset-2"].map (fun a => some a)) =
        .ok (inputs, headers) ∧
      ("Authorization", "Bearer " ++ "tok") ∈ headers ∧
      ("Content-Type", "application/json") ∈ headers ∧
      ("NVCF-POLL-SECONDS", "3600") ∈ headers ∧
      ((["asset-1", "asset-2"] : List String) ≠ [] →
        ("NVCF-INPUT-ASSET-REFERENCES",
          String.intercalate "," ["asset-1", "asset-2"]) ∈ headers) ∧
      ((["asset-1", "asset-2"] : List String) = [] →
        ∀ v, ("NVCF-INPUT-ASSET-REFERENCES", v) ∉ headers) ∧
      inputs = ⟨"command", [1], "BYTES", [some "vis_control --x=1"]⟩ ::
        ((["asset-1", "asset-2"] : List String).enum.map (fun p =>
          (⟨"image_assetId_" ++ toString p.1, [1], "BYTES", [some p.2]⟩ : InputEntry))) :=
  format_request_headers_and_body "vis_control --x=1" "tok" ["asset-1", "asset-2"]

/-- The delays slept across `n` consecutive pending re-checks starting from
current delay `d`: each step first doubles capped at `maxB`, then sleeps the
updated value (the update order of source lines 228-230). -/
def sleepSeq (d maxB : ℚ) : Nat → List ℚ
  | 0 => []
  | n + 1 => min (d * 2) maxB :: sleepSeq (min (d * 2) maxB) maxB n

theorem sleepSeq_length : ∀ (n : Nat) (d maxB : ℚ), (sleepSeq d maxB n).length = n := by
  intro n
  induction n with
  | zero => intro d maxB; rfl
  | succ m ih => intro d maxB; simp [sleepSeq, ih]

/-- The polling loop issues at most `fuel` further GET requests. -/
theorem poll_loop_num_polls_le (polls : Nat → Resp) (maxA : Nat) (maxB : ℚ) :
    ∀ (fuel : Nat) (resp : Resp) (attempt : Nat) (delay : ℚ) (issued : Nat) (sleeps : List ℚ),
      (poll_loop polls maxA maxB fuel resp attempt delay issued sleeps).num_polls ≤
        issued + fuel := by
  intro fuel
  induction fuel with
  | zero => intro resp attempt delay issued sleeps; simp [poll_loop]
  | succ f ih =>
    intro resp attempt delay issued sleeps
    rw [poll_loop]
    split
    · split
      · simp
      · split
        · exact le_trans (ih _ _ _ _ _) (by omega)
        · exact le_trans (ih _ _ _ _ _) (by omega)
    · simp

/-- A non-pending response never enters the loop body. -/
theorem poll_loop_not_pending (polls : Nat → Resp) (maxA : Nat) (maxB : ℚ)
    (fuel : Nat) (resp : Resp) (attempt : Nat) (delay : ℚ) (issued : Nat) (sleeps : List ℚ)
    (h : resp.status ≠ 202) :
    poll_loop polls maxA maxB fuel resp attempt delay issued sleeps =
      ⟨resp, attempt, issued, sleeps⟩ := by
  cases fuel with
  | zero => rfl
  | succ f => rw [poll_loop, if_neg (fun hc => h hc.1)]

/-- When every poll stays pending, the loop spends the whole fuel `k + 1`,
polling once per unit of fuel and sleeping after every pending re-check
except the last, and the attempt counter ends at the budget. -/
theorem poll_loop_all_pending (polls : Nat → Resp) (maxA : Nat) (maxB : ℚ) :
    ∀ (k : Nat) (resp : Resp) (attempt : Nat) (delay : ℚ) (issued : Nat) (sleeps : List ℚ),
      resp.status = 202 →
      (k + 1) + attempt = maxA →
      (∀ j, j ≤ k → (polls (issued + j)).status = 202) →
      poll_loop polls maxA maxB (k + 1) resp attempt delay issued sleeps =
        ⟨polls (issued + k), maxA, issued + k + 1, sleeps ++ sleepSeq delay maxB k⟩ := by
  intro k
  induction k with
  | zero =>
    intro resp attempt delay issued sleeps h202 hfa hall
    have hlt : attempt < maxA := by omega
    have h0 : (polls (issued + 0)).status = 202 := hall 0 (Nat.le_refl 0)
    rw [poll_loop, if_pos ⟨h202, hlt⟩, if_neg (by simpa using h0),
      if_neg (by omega : ¬ attempt + 1 < maxA), poll_loop]
    have ha : attempt + 1 = maxA := by omega
    simp [sleepSeq, ha]
  | succ m ih =>
    intro resp attempt delay issued sleeps h202 hfa hall
    have hlt : attempt < maxA := by omega
    have h0 : (polls (issued + 0)).status = 202 := hall 0 (Nat.zero_le _)
    rw [poll_loop, if_pos ⟨h202, hlt⟩, if_neg (by simpa using h0),
      if_pos (by omega : attempt + 1 < maxA)]
    rw [ih (polls issued) (attempt + 1) (min (delay * 2) maxB) (issued + 1)
        (sleeps ++ [min (delay * 2) maxB]) (by simpa using h0) (by omega)
        (fun j hj => by
          have := hall (j + 1) (by omega)
          rw [show issued + 1 + j = issued + (j + 1) by omega]
          exact this)]
    simp only [sleepSeq, List.append_assoc, List.singleton_append]
    congr 1
    · exact congrArg polls (by omega)
    · omega

/-- When the first non-pending poll appears at relative index `n` within the
budget, the loop breaks there: `n + 1` further polls in total, `n` sleeps,
and the attempt counter advanced by `n`. -/
theorem poll_loop_break (polls : Nat → Resp) (maxA : Nat) (maxB : ℚ) :
    ∀ (n fuel : Nat) (resp : Resp) (attempt : Nat) (delay : ℚ) (issued : Nat)
      (sleeps : List ℚ),
      resp.status = 202 →
      fuel + attempt = maxA →
      n < fuel →
      (∀ j, j < n → (polls (issued + j)).status = 202) →
      (polls (issued + n)).status ≠ 202 →
      poll_loop polls maxA maxB fuel resp attempt delay issued sleeps =
        ⟨polls (issued + n), attempt + n, issued + n + 1,
          sleeps ++ sleepSeq delay maxB n⟩ := by
  intro n
  induction n with
  | zero =>
    intro fuel resp attempt delay issued sleeps h202 hfa hnf _ hbreak
    obtain ⟨f, rfl⟩ : ∃ f, fuel = f + 1 := ⟨fuel - 1, by omega⟩
    have hlt : attempt < maxA := by omega
    rw [poll_loop, if_pos ⟨h202, hlt⟩, if_pos (by simpa using hbreak)]
    simp [sleepSeq]
  | succ m ih =>
    intro fuel resp attempt delay issued sleeps h202 hfa hnf hall hbreak
    obtain ⟨f, rfl⟩ : ∃ f, fuel = f + 1 := ⟨fuel - 1, by omega⟩
    have hlt : attempt < maxA := by omega
    have h0 : (polls (issued + 0)).status = 202 := hall 0 (Nat.succ_pos m)
    rw [poll_loop, if_pos ⟨h202, hlt⟩, if_neg (by simpa using h0),
      if_pos (by omega : attempt + 1 < maxA)]
    rw [ih f (polls issued) (attempt + 1) (min (delay * 2) maxB) (issued + 1)
        (sleeps ++ [min (delay * 2) maxB]) (by simpa using h0) (by omega) (by omega)
        (fun j hj => by
          have := hall (j + 1) (by omega)
          rw [show issued + 1 + j = issued + (j + 1) by omega]
          exact this)
        (by
          rw [show issued + 1 + m = issued + (m + 1) by omega]
          exact hbreak)]
    simp only [sleepSeq, List.append_assoc, List.singleton_append]
    congr 1
    · exact congrArg polls (by omega)
    · omega
    · omega

/-- Min-cap algebra of the backoff update: scaling a capped value and
re-capping is capping the scaled value, for a nonnegative cap and a scale
factor at least one. -/
theorem min_mul_backoff (a b c : ℚ) (hb : 0 ≤ b) (hc : 1 ≤ c) :
    min (min a b * c) b = min (a * c) b := by
  rcases le_total a b with h | h
  · rw [min_eq_left h]
  · rw [min_eq_right h, min_eq_right (le_mul_of_one_le_right hb hc),
      min_eq_right (le_trans h (le_mul_of_one_le_right (le_trans hb h) hc))]

/-- Closed form of the sleep sequence: the `j`-th sleep (0-indexed) is
`min (d * 2 ^ (j + 1)) maxB`. -/
theorem sleepSeq_eq_map (maxB : ℚ) (hB : 0 ≤ maxB) :
    ∀ (n : Nat) (d : ℚ), sleepSeq d maxB n =
      (List.range n).map (fun j => min (d * 2 ^ (j + 1)) maxB) := by
  intro n
  induction n with
  | zero => intro d; rfl
  | succ m ih =>
    intro d
    rw [sleepSeq, ih (min (d * 2) maxB), List.range_succ_eq_map, List.map_cons,
      List.map_map]
    refine congrArg₂ List.cons ?_ ?_
    · norm_num
    · refine List.map_congr_left ?_
      intro j _
      simp only [Function.comp_apply]
      rw [min_mul_backoff (d * 2) maxB (2 ^ (j + 1)) hB (one_le_pow₀ one_le_two)]
      congr 1
      rw [Nat.succ_eq_add_one]
      ring

/-- A zero attempt budget short-circuits the loop and always raises. -/
theorem poll_response_zero_attempts (response : Resp) (polls : Nat → Resp)
    (d maxB : ℚ) :
    _poll_response_async response polls d 0 maxB =
      ⟨.error (.timeoutError "Maximum polling attempts reached"), 0, []⟩ := rfl

/-- With at least one attempt allowed, a non-pending submission is returned
untouched: no polls, no sleeps. -/
theorem poll_response_not_pending (response : Resp) (polls : Nat → Resp)
    (d : ℚ) (maxA : Nat) (maxB : ℚ) (h : response.status ≠ 202) (hA : 1 ≤ maxA) :
    _poll_response_async response polls d maxA maxB = ⟨.ok response, 0, []⟩ := by
  unfold _poll_response_async
  rw [poll_loop_not_pending polls maxA maxB maxA response 0 d 0 [] h]
  unfold poll_finish
  rw [if_neg (by simp; omega)]

/-- When the submission and every poll within the budget stay pending, the
run raises the timeout after exactly `maxA` polls and `maxA - 1` sleeps. -/
theorem poll_response_all_pending (response : Resp) (polls : Nat → Resp)
    (d : ℚ) (maxA : Nat) (maxB : ℚ) (h202 : response.status = 202)
    (hall : ∀ j, j < maxA → (polls j).status = 202) :
    _poll_response_async response polls d maxA maxB =
      ⟨.error (.timeoutError "Maximum polling attempts reached"), maxA,
        sleepSeq d maxB (maxA - 1)⟩ := by
  cases maxA with
  | zero => rfl
  | succ k =>
    unfold _poll_response_async
    rw [poll_loop_all_pending polls (k + 1) maxB k response 0 d 0 [] h202 (by omega)
        (fun j hj => by simpa using hall j (by omega))]
    unfold poll_finish
    rw [if_pos (by simp)]
    simp

/-- When the first non-pending poll appears at index `n` within the budget,
the run returns it after exactly `n + 1` polls and `n` sleeps. -/
theorem poll_response_break (response : Resp) (polls : Nat → Resp)
    (d : ℚ) (maxA : Nat) (maxB : ℚ) (n : Nat) (h202 : response.status = 202)
    (hn : n < maxA) (hall : ∀ j, j < n → (polls j).status = 202)
    (hbreak : (polls n).status ≠ 202) :
    _poll_response_async response polls d maxA maxB =
      ⟨.ok (polls n), n + 1, sleepSeq d maxB n⟩ := by
  unfold _poll_response_async
  rw [poll_loop_break polls maxA maxB n maxA response 0 d 0 [] h202 (by omega) hn
      (fun j hj => by simpa using hall j hj) (by simpa using hbreak)]
  unfold poll_finish
  rw [if_neg (by simp; omega)]
  simp

/-- The wrapper never issues more than `maxA` polls. -/
theorem poll_response_num_polls_le (response : Resp) (polls : Nat → Resp)
    (d : ℚ) (maxA : Nat) (maxB : ℚ) :
    (_poll_response_async response polls d maxA maxB).num_polls ≤ maxA := by
  unfold _poll_response_async poll_finish
  split
  · simpa using poll_loop_num_polls_le polls maxA maxB maxA response 0 d 0 []
  · simpa using poll_loop_num_polls_le polls maxA maxB maxA response 0 d 0 []

/-- A pending (202) response fixture. -/
def pendingResp : Resp := ⟨202, "application/json", "", none, false⟩

/-- A terminal 200 JSON response fixture. -/
def okJsonResp : Resp := ⟨200, "application/json", "ok", none, false⟩

/-- C1: every run issues at most `max_attempts` follow-up polls, and when a
response is returned after at least one poll it is the first poll response
whose status is not 202 — every earlier poll was 202, the non-202 poll is
the last request issued, and no sleep follows it (there are exactly
`num_polls - 1` sleeps). -/
theorem poll_response_budget_and_first_non_pending (response : Resp)
    (polls : Nat → Resp) (d : ℚ) (maxA : Nat) (maxB : ℚ) :
    (_poll_response_async response polls d maxA maxB).num_polls ≤ maxA ∧
    (∀ final, (_poll_response_async response polls d maxA maxB).result = .ok final →
      0 < (_poll_response_async response polls d maxA maxB).num_polls →
      final = polls ((_poll_response_async response polls d maxA maxB).num_polls - 1) ∧
      (polls ((_poll_response_async response polls d maxA maxB).num_polls - 1)).status ≠ 202 ∧
      (∀ j, j < (_poll_response_async response polls d maxA maxB).num_polls - 1 →
        (polls j).status = 202) ∧
      (_poll_response_async response polls d maxA maxB).sleeps.length =
        (_poll_response_async response polls d maxA maxB).num_polls - 1) := by
  refine ⟨poll_response_num_polls_le response polls d maxA maxB, ?_⟩
  intro final hok hpos
  by_cases h202 : response.status = 202
  · by_cases hex : ∃ i, i < maxA ∧ (polls i).status ≠ 202
    · obtain ⟨n, hn1, hn2, hall⟩ : ∃ n, n < maxA ∧ (polls n).status ≠ 202 ∧
          ∀ j, j < n → (polls j).status = 202 := by
        refine ⟨Nat.find hex, (Nat.find_spec hex).1, (Nat.find_spec hex).2, ?_⟩
        intro j hj
        by_contra hne
        exact Nat.find_min hex hj ⟨lt_trans hj (Nat.find_spec hex).1, hne⟩
      have hrun := poll_response_break response polls d maxA maxB n h202 hn1 hall hn2
      rw [hrun] at hok hpos ⊢
      have hfinal : polls n = final := by simpa using hok
      subst hfinal
      refine ⟨by simp, by simpa using hn2, ?_, by simp [sleepSeq_length]⟩
      intro j hj
      simp at hj
      exact hall j hj
    · push_neg at hex
      have hrun := poll_response_all_pending response polls d maxA maxB h202 hex
      rw [hrun] at hok
      simp at hok
  · cases maxA with
    | zero =>
      rw [poll_response_zero_attempts response polls d maxB] at hok
      simp at hok
    | succ k =>
      have hrun := poll_response_not_pending response polls d (k + 1) maxB h202 (by omega)
      rw [hrun] at hpos
      simp at hpos

/-- Witness for C1: polls 0 and 1 pending, poll 2 terminal with budget 5. -/
theorem poll_response_budget_and_first_non_pending_witness :
    ((_poll_response_async pendingResp
        (fun k => if k < 2 then pendingResp else okJsonResp) 1 5 32).result =
      .ok okJsonResp ∧
     0 < (_poll_response_async pendingResp
        (fun k => if k < 2 then pendingResp else okJsonResp) 1 5 32).num_polls) ∧
    (okJsonResp = (fun k => if k < 2 then pendingResp else okJsonResp)
        ((_poll_response_async pendingResp
          (fun k => if k < 2 then pendingResp else okJsonResp) 1 5 32).num_polls - 1) ∧
     ((fun k => if k < 2 then pendingResp else okJsonResp)
        ((_poll_response_async pendingResp
          (fun k => if k < 2 then pendingResp else okJsonResp) 1 5 32).num_polls - 1)).status
        ≠ 202 ∧
     (∀ j, j < (_poll_response_async pendingResp
          (fun k => if k < 2 then pendingResp else okJsonResp) 1 5 32).num_polls - 1 →
        ((fun k => if k < 2 then pendingResp else okJsonResp) j).status = 202) ∧
     (_poll_response_async pendingResp
        (fun k => if k < 2 then pendingResp else okJsonResp) 1 5 32).sleeps.length =
       (_poll_response_async pendingResp
        (fun k => if k < 2 then pendingResp else okJsonResp) 1 5 32).num_polls - 1) :=
  ⟨⟨rfl, by decide⟩,
    (poll_response_budget_and_first_non_pending pendingResp
      (fun k => if k < 2 then pendingResp else okJsonResp) 1 5 32).2 okJsonResp rfl (by decide)⟩

/-- C2 (amended): if the initial submission and all `max_attempts` follow-up
polls report 202 the run raises `TimeoutError("Maximum polling attempts
reached")` after exactly `max_attempts` polls and none afterwards; and —
provided `max_attempts ≥ 1` — it never raises this error when a non-202
response was observed within the budget, be it the initial response or any
issued poll. -/
theorem poll_response_timeout_exactly_when_all_pending (response : Resp)
    (polls : Nat → Resp) (d : ℚ) (maxA : Nat) (maxB : ℚ) :
    (response.status = 202 → (∀ j, j < maxA → (polls j).status = 202) →
      (_poll_response_async response polls d maxA maxB).result =
        .error (.timeoutError "Maximum polling attempts reached") ∧
      (_poll_response_async response polls d maxA maxB).num_polls = maxA) ∧
    (1 ≤ maxA → response.status ≠ 202 →
      (_poll_response_async response polls d maxA maxB).result = .ok response) ∧
    (∀ j, j < (_poll_response_async response polls d maxA maxB).num_polls →
      (polls j).status ≠ 202 →
      ∃ final, (_poll_response_async response polls d maxA maxB).result = .ok final) := by
  refine ⟨?_, ?_, ?_⟩
  · intro h202 hall
    rw [poll_response_all_pending response polls d maxA maxB h202 hall]
    exact ⟨rfl, rfl⟩
  · intro hA hnp
    rw [poll_response_not_pending response polls d maxA maxB hnp hA]
  · intro j hj hne
    have hjA : j < maxA :=
      lt_of_lt_of_le hj (poll_response_num_polls_le response polls d maxA maxB)
    by_cases h202 : response.status = 202
    · have hex : ∃ i, i < maxA ∧ (polls i).status ≠ 202 := ⟨j, hjA, hne⟩
      have hn1 : Nat.find hex < maxA := (Nat.find_spec hex).1
      have hn2 : (polls (Nat.find hex)).status ≠ 202 := (Nat.find_spec hex).2
      have hall : ∀ i, i < Nat.find hex → (polls i).status = 202 := by
        intro i hi
        by_contra hni
        exact Nat.find_min hex hi ⟨lt_trans hi hn1, hni⟩
      rw [poll_response_break response polls d maxA maxB (Nat.find hex) h202 hn1 hall hn2]
      exact ⟨polls (Nat.find hex), rfl⟩
    · cases maxA with
      | zero => omega
      | succ k =>
        rw [poll_response_not_pending response polls d (k + 1) maxB h202 (by omega)]
        exact ⟨response, rfl⟩

/-- Witness for C2 at an always-pending oracle with budget 2. -/
theorem poll_response_timeout_exactly_when_all_pending_witness :
    (pendingResp.status = 202 ∧
     (∀ j, j < 2 → ((fun _ => pendingResp) j : Resp).status = 202)) ∧
    ((_poll_response_async pendingResp (fun _ => pendingResp) 1 2 32).result =
       .error (.timeoutError "Maximum polling attempts reached") ∧
     (_poll_response_async pendingResp (fun _ => pendingResp) 1 2 32).num_polls = 2) :=
  ⟨⟨rfl, fun _ _ => rfl⟩,
    (poll_response_timeout_exactly_when_all_pending pendingResp (fun _ => pendingResp)
      1 2 32).1 rfl (fun _ _ => rfl)⟩

/-- C2 counterexample: with `max_attempts = 0` the only observed response is
the initial submission with status 200 — a non-202 within the (empty)
budget — yet the run still raises the timeout error, because the final
check compares the attempt counter with the budget regardless of how the
loop exited. -/
theorem poll_response_timeout_despite_non_pending_observed :
    okJsonResp.status ≠ 202 ∧
    (_poll_response_async okJsonResp (fun _ => okJsonResp) 1 0 32).result =
      .error (.timeoutError "Maximum polling attempts reached") :=
  ⟨by decide, rfl⟩

/-- C3 (amended): with a nonnegative backoff cap the delays slept are
exactly `min(initial_delay · 2^(j+1), max_backoff)` for the 0-indexed `j`-th
sleep — equivalently `min(initial_delay · 2^(k-1), max_backoff)` before poll
`k` counting polls from 1, the first poll being preceded by no sleep.  The
engine doubles the delay, capping at `max_backoff`, and only then sleeps for
the updated value. -/
theorem poll_response_backoff_formula (response : Resp) (polls : Nat → Resp)
    (d : ℚ) (maxA : Nat) (maxB : ℚ) (hB : 0 ≤ maxB) :
    (_poll_response_async response polls d maxA maxB).sleeps =
      (List.range (_poll_response_async response polls d maxA maxB).sleeps.length).map
        (fun j => min (d * 2 ^ (j + 1)) maxB) := by
  obtain ⟨m, hm⟩ : ∃ m, (_poll_response_async response polls d maxA maxB).sleeps =
      sleepSeq d maxB m := by
    by_cases h202 : response.status = 202
    · by_cases hex : ∃ i, i < maxA ∧ (polls i).status ≠ 202
      · have hn1 : Nat.find hex < maxA := (Nat.find_spec hex).1
        have hn2 : (polls (Nat.find hex)).status ≠ 202 := (Nat.find_spec hex).2
        have hall : ∀ i, i < Nat.find hex → (polls i).status = 202 := by
          intro i hi
          by_contra hni
          exact Nat.find_min hex hi ⟨lt_trans hi hn1, hni⟩
        exact ⟨Nat.find hex,
          by rw [poll_response_break response polls d maxA maxB (Nat.find hex) h202 hn1
              hall hn2]⟩
      · push_neg at hex
        exact ⟨maxA - 1,
          by rw [poll_response_all_pending response polls d maxA maxB h202 hex]⟩
    · cases maxA with
      | zero => exact ⟨0, by rw [poll_response_zero_attempts response polls d maxB]; rfl⟩
      | succ k => exact ⟨0,
          by rw [poll_response_not_pending response polls d (k + 1) maxB h202 (by omega)]; rfl⟩
  rw [hm, sleepSeq_length, sleepSeq_eq_map maxB hB m d]

/-- Witness for C3: three all-pending polls with `initial_delay = 1`,
`max_backoff = 32`. -/
theorem poll_response_backoff_formula_witness :
    (0 : ℚ) ≤ 32 ∧
    (_poll_response_async pendingResp (fun _ => pendingResp) 1 3 32).sleeps =
      (List.range
        (_poll_response_async pendingResp (fun _ => pendingResp) 1 3 32).sleeps.length).map
        (fun j => min ((1 : ℚ) * 2 ^ (j + 1)) 32) :=
  ⟨by norm_num,
    poll_response_backoff_formula pendingResp (fun _ => pendingResp) 1 3 32 (by norm_num)⟩

/-- C3 counterexample: with `initial_delay = 1` the first sleep is already
`min(1·2, 32) = 2` — the engine doubles the delay before sleeping — whereas
sleeping first and doubling afterwards would have slept `[1, 2]`. -/
theorem poll_response_first_sleep_already_doubled :
    (_poll_response_async pendingResp (fun _ => pendingResp) 1 3 32).sleeps = [2, 4] ∧
    ([2, 4] : List ℚ) ≠ [1, 2] := by
  constructor
  · rw [poll_response_all_pending pendingResp (fun _ => pendingResp) 1 3 32 rfl
      (fun _ _ => rfl)]
    show sleepSeq 1 32 2 = [2, 4]
    rw [show sleepSeq (1 : ℚ) 32 2 =
        [min ((1 : ℚ) * 2) 32, min (min ((1 : ℚ) * 2) 32 * 2) 32] from rfl]
    norm_num [min_def]
  · norm_num

/-- C10: with `max_attempts = 0` the final budget check (`attempt >=
max_attempts` with `attempt` still 0) fires for every initial response, even
one that is already non-pending, so `TimeoutError` is always raised. -/
theorem poll_response_zero_budget_always_times_out (response : Resp)
    (polls : Nat → Resp) (d maxB : ℚ) :
    (_poll_response_async response polls d 0 maxB).result =
      .error (.timeoutError "Maximum polling attempts reached") := rfl

/-- A returned poll response is the final response of the polling loop. -/
theorem poll_response_ok_final (response : Resp) (polls : Nat → Resp)
    (d : ℚ) (maxA : Nat) (maxB : ℚ) (f : Resp)
    (h : (_poll_response_async response polls d maxA maxB).result = .ok f) :
    f = (poll_loop polls maxA maxB maxA response 0 d 0 []).final := by
  unfold _poll_response_async poll_finish at h
  split at h
  · simp at h
  · injection h with h2
    exact h2.symm

/-- Every `Result` built by the terminal handling carries the status of the
response it was built from. -/
theorem api_terminal_status {J : Type} (codec : JsonCodec J) (resp : Resp)
    (r : Result J) (h : api_terminal codec resp = .ok r) :
    r.status_code = resp.status := by
  unfold api_terminal at h
  split at h <;> split at h <;>
    first
    | (injection h with h2; subst h2; rfl)
    | simp at h

/-- Non-200 terminal status: raw body text, no output, observed status. -/
theorem api_terminal_non200 {J : Type} (codec : JsonCodec J) (resp : Resp)
    (r : Result J) (hs : resp.status ≠ 200) (h : api_terminal codec resp = .ok r) :
    r = ⟨.str resp.body_text, none, resp.status⟩ := by
  unfold api_terminal at h
  rw [if_pos hs] at h
  split at h
  · simp at h
  · injection h with h2
    exact h2.symm

/-- 200 with a decodable body: the decoded payload in both fields. -/
theorem api_terminal_200_ok {J : Type} (codec : JsonCodec J) (resp : Resp)
    (out : Output J) (hs : resp.status = 200)
    (hp : process_response codec resp = .ok out) :
    api_terminal codec resp = .ok ⟨.payload out, some out, resp.status⟩ := by
  unfold api_terminal
  rw [if_neg (fun hne => hne hs), hp]

/-- Whenever `api_call_async` returns a `Result`, the polling loop returned
the last observed response and the terminal handling built the result from
exactly that response. -/
theorem api_call_ok_inversion {J : Type} (codec : JsonCodec J) (env : ApiEnv)
    (token : String) (params : List (String × String)) (filepaths : List String)
    (r : Result J) (h : api_call_async codec env token params filepaths = .ok r) :
    api_terminal codec (last_observed env) = .ok r := by
  unfold api_call_async at h
  split at h
  · simp at h
  · split at h
    · simp at h
    · split at h
      · simp at h
      · rename_i final heq
        rw [poll_response_ok_final env.submit_response env.poll_responses (1 / 1000)
          10 32 final heq] at h
        exact h

/-- C5: whenever `api_call_async` returns a `Result`, its `status_code`
equals the status of the last HTTP response actually observed (the final
response of the polling loop), never a synthesized value; a non-200 terminal
status yields `Result(response_text = raw body text, output = None,
status_code = status)`; a 200 whose body decodes yields the decoded payload
in both `response_text` and `output` with `status_code = 200`. -/
theorem api_result_fields_and_status {J : Type} (codec : JsonCodec J) (env : ApiEnv)
    (token : String) (params : List (String × String)) (filepaths : List String)
    (r : Result J) (h : api_call_async codec env token params filepaths = .ok r) :
    r.status_code = (last_observed env).status ∧
    ((last_observed env).status ≠ 200 →
      r = ⟨.str (last_observed env).body_text, none, (last_observed env).status⟩) ∧
    (∀ out, (last_observed env).status = 200 →
      process_response codec (last_observed env) = .ok out →
      r = ⟨.payload out, some out, 200⟩) := by
  have hterm := api_call_ok_inversion codec env token params filepaths r h
  refine ⟨api_terminal_status codec _ r hterm, ?_, ?_⟩
  · intro hs
    exact api_terminal_non200 codec _ r hs hterm
  · intro out hs hp
    have h200 := api_terminal_200_ok codec (last_observed env) out hs hp
    rw [hterm] at h200
    injection h200 with h2
    rw [hs] at h2
    exact h2

/-- Witness for C5: no assets, submission immediately terminal with a
decodable JSON body. -/
theorem api_result_fields_and_status_witness :
    api_call_async (J := Unit) ⟨fun _ => some (), fun _ => none⟩
        ⟨fun _ => none, fun _ => ("", ""), fun _ => (200, ""), okJsonResp,
          fun _ => okJsonResp⟩ "tok" [] [] =
      .ok ⟨.payload (.jsonOut ()), some (.jsonOut ()), 200⟩ ∧
    ((⟨.payload (.jsonOut ()), some (.jsonOut ()), 200⟩ : Result Unit).status_code =
      (last_observed ⟨fun _ => none, fun _ => ("", ""), fun _ => (200, ""), okJsonResp,
        fun _ => okJsonResp⟩).status ∧
     ((last_observed ⟨fun _ => none, fun _ => ("", ""), fun _ => (200, ""), okJsonResp,
        fun _ => okJsonResp⟩).status ≠ 200 →
       (⟨.payload (.jsonOut ()), some (.jsonOut ()), 200⟩ : Result Unit) =
         ⟨.str (last_observed ⟨fun _ => none, fun _ => ("", ""), fun _ => (200, ""),
            okJsonResp, fun _ => okJsonResp⟩).body_text, none,
          (last_observed ⟨fun _ => none, fun _ => ("", ""), fun _ => (200, ""), okJsonResp,
            fun _ => okJsonResp⟩).status⟩) ∧
     (∀ out, (last_observed ⟨fun _ => none, fun _ => ("", ""), fun _ => (200, ""),
          okJsonResp, fun _ => okJsonResp⟩).status = 200 →
        process_response (J := Unit) ⟨fun _ => some (), fun _ => none⟩
          (last_observed ⟨fun _ => none, fun _ => ("", ""), fun _ => (200, ""), okJsonResp,
            fun _ => okJsonResp⟩) = .ok out →
        (⟨.payload (.jsonOut ()), some (.jsonOut ()), 200⟩ : Result Unit) =
          ⟨.payload out, some out, 200⟩)) :=
  ⟨rfl, api_result_fields_and_status ⟨fun _ => some (), fun _ => none⟩
    ⟨fun _ => none, fun _ => ("", ""), fun _ => (200, ""), okJsonResp,
      fun _ => okJsonResp⟩ "tok" [] []
    ⟨.payload (.jsonOut ()), some (.jsonOut ()), 200⟩ rfl⟩

/-- C4 (code-bug evidence): with one local file whose upload returns status
403, `_prepare_local_asset_async` does not raise and yields no identifier,
but `api_call_async` appends that `None` to `asset_names` unconditionally
(source line 327), so `",".join(asset_names)` inside `_format_request`
raises `TypeError` and the whole invocation aborts before any submission —
it does not build and submit the request for the remaining assets. -/
theorem api_upload_failure_aborts_invocation :
    (_prepare_local_asset_async
        ⟨fun _ => some [0], fun _ => ("upload-url", "asset-1"), fun _ => (403, "Forbidden")⟩
        "in.png" "in.png" 0).1 = .ok none ∧
    api_call_async (J := Unit) ⟨fun _ => some (), fun _ => none⟩
        ⟨fun _ => some [0], fun _ => ("upload-url", "asset-1"), fun _ => (403, "Forbidden"),
          okJsonResp, fun _ => okJsonResp⟩ "tok" [] ["in.png"] =
      .error (.typeError "TypeError: sequence item: expected str instance, NoneType found") :=
  ⟨rfl, rfl⟩

end NvcfAsync
